import Mathlib

/-
  Verification development for a Redis cluster proxy.

  Go strings are byte sequences, so wire data (keys, commands, replies,
  addresses) is embedded as List Nat, one entry per byte.  String literals
  appear only through strBytes, which takes the code points of an ASCII
  literal (identical to the UTF-8 bytes for ASCII inputs, which is all the
  concrete inputs used here).
-/

namespace RCProxy

/-- Byte view of an ASCII string literal (each char as its code point). -/
def strBytes (s : String) : List Nat := s.toList.map Char.toNat

/-! ## CRC16 and slot computation (cluster.go) -/

/-- One byte step of the loop in crc16CCITT (cluster.go): xor the byte into
the high half of the register, then eight conditional shift/xor rounds with
polynomial 0x1021, all reduced modulo 2^16 as the Go uint16 arithmetic does. -/
def crc16Step (crc b : Nat) : Nat :=
  let crc := (Nat.xor crc ((b % 256) <<< 8)) % 65536
  (List.range 8).foldl
    (fun c _ =>
      if Nat.land c 0x8000 ≠ 0 then (Nat.xor (c <<< 1) 0x1021) % 65536
      else (c <<< 1) % 65536)
    crc

/-- crc16CCITT (cluster.go): polynomial 0x1021, initial value 0x0000, no
reflection, no final xor; the register is a uint16, modelled as Nat mod 2^16. -/
def crc16CCITT (data : List Nat) : Nat := data.foldl crc16Step 0

/-- calculateSlot (cluster.go): if the key contains an opening brace
(byte 123) and a closing brace (byte 125) somewhere after it, replace the key
by the bytes strictly between the first opening brace and the first closing
brace after it (possibly empty), then return crc16CCITT of the result
modulo 16384. -/
def calculateSlot (key : List Nat) : Nat :=
  let routed :=
    match key.findIdx? (· = 123) with
    | some start =>
      let after := key.drop (start + 1)
      match after.findIdx? (· = 125) with
      | some e => after.take e
      | none => key
    | none => key
  crc16CCITT routed % 16384

/-! ## Decimal digits and the Go strconv.Atoi model -/

/-- ASCII decimal digits of n, least significant first.  The fuel argument
makes the division recursion structural; any fuel of at least n is enough
to never hit the fallback arm, and natAsciiRev supplies n itself. -/
def natAsciiRevFuel : Nat → Nat → List Nat
  | 0, n => [48 + n % 10]
  | fuel + 1, n =>
    if n < 10 then [48 + n]
    else (48 + n % 10) :: natAsciiRevFuel fuel (n / 10)

/-- ASCII decimal digits of n, least significant first. -/
def natAsciiRev (n : Nat) : List Nat := natAsciiRevFuel n n

/-- ASCII decimal representation of n, most significant digit first, as
produced by the Go fmt verb for a nonnegative integer. -/
def natAscii (n : Nat) : List Nat := (natAsciiRev n).reverse

/-- Value of one ASCII digit byte, none when the byte is not a digit. -/
def digitVal (b : Nat) : Option Nat :=
  if 48 ≤ b ∧ b ≤ 57 then some (b - 48) else none

/-- Accumulating decimal parse over digit bytes; fails on a non-digit. -/
def parseDigitsAux : List Nat → Nat → Option Nat
  | [], acc => some acc
  | b :: rest, acc =>
    match digitVal b with
    | some d => parseDigitsAux rest (acc * 10 + d)
    | none => none

/-- Nonempty all-digit parse. -/
def parseDigits (s : List Nat) : Option Nat :=
  match s with
  | [] => none
  | _ => parseDigitsAux s 0

/-- Model of Go strconv.Atoi on a byte string: an optional sign (byte 45
minus, byte 43 plus) followed by a nonempty run of decimal digits; anything
else is an error.  Overflow of the Go int type is not modelled: the values
in scope here are far below it. -/
def goAtoiBytes (s : List Nat) : Option Int :=
  match s with
  | [] => none
  | b :: rest =>
    if b = 45 then (parseDigits rest).map (fun n => -(n : Int))
    else if b = 43 then (parseDigits rest).map (fun n => (n : Int))
    else (parseDigits s).map (fun n => (n : Int))

/-! ## Byte-string utilities mirroring the Go strings package (ASCII range) -/

/-- The six ASCII whitespace bytes recognised by Go strings.TrimSpace. -/
def isSpaceByte (b : Nat) : Bool :=
  b = 32 || b = 9 || b = 10 || b = 13 || b = 11 || b = 12

/-- Go strings.TrimSpace on bytes: drop whitespace from both ends. -/
def trimSpace (s : List Nat) : List Nat :=
  ((s.dropWhile isSpaceByte).reverse.dropWhile isSpaceByte).reverse

/-- Helper for fieldsBytes: accumulate the current word in reverse. -/
def fieldsAux : List Nat → List Nat → List (List Nat)
  | [], cur => if cur = [] then [] else [cur.reverse]
  | b :: rest, cur =>
    if isSpaceByte b then
      if cur = [] then fieldsAux rest [] else cur.reverse :: fieldsAux rest []
    else fieldsAux rest (b :: cur)

/-- Go strings.Fields on bytes: split around runs of whitespace. -/
def fieldsBytes (s : List Nat) : List (List Nat) := fieldsAux s []

/-- Go strings.HasPrefix on bytes. -/
def startsWithBytes (p s : List Nat) : Bool := s.take p.length = p

/-- Go strings.ToUpper restricted to ASCII bytes. -/
def toUpperBytes (s : List Nat) : List Nat :=
  s.map (fun b => if 97 ≤ b ∧ b ≤ 122 then b - 32 else b)

/-! ## Reader model

A bufio.Reader over a finished stream is a byte list; ReadString with the
newline delimiter consumes up to and including the first byte 10. -/

/-- Model of reader.ReadString with delimiter byte 10: the consumed line
including the delimiter, and the remaining bytes; none when no delimiter
remains (the Go call returns an error in that case). -/
def readLine : List Nat → Option (List Nat × List Nat)
  | [] => none
  | b :: rest =>
    if b = 10 then some ([10], rest)
    else
      match readLine rest with
      | some (l, r) => some (b :: l, r)
      | none => none

/-- Model of a ReadString call whose error is ignored by the source: consume
through the first newline, or the whole remainder when none is present. -/
def dropThroughNewline (s : List Nat) : List Nat :=
  match readLine s with
  | some (_, r) => r
  | none => []

/-! ## Command framing (protocol.go ParseCommand, proxy sendCommandToBackend) -/

/-- Serialization of one argument inside sendCommandToBackend: a dollar
byte, the decimal length, CRLF, the raw bytes, CRLF. -/
def encodeArg (arg : List Nat) : List Nat :=
  36 :: natAscii arg.length ++ [13, 10] ++ arg ++ [13, 10]

/-- Concatenation of the encodings of a list of arguments. -/
def encodeArgs : List (List Nat) → List Nat
  | [] => []
  | a :: rest => encodeArg a ++ encodeArgs rest

/-- sendCommandToBackend (proxy source): the exact bytes written to the
backend for a command, a star header with the argument count then each
argument as a length-prefixed bulk string. -/
def sendCommandToBackend (command : List (List Nat)) : List Nat :=
  42 :: natAscii command.length ++ [13, 10] ++ encodeArgs command

/-- parseBulkString (protocol.go): read one header line, trim it, require a
leading dollar byte, Atoi the rest; minus one yields an empty argument with
nothing consumed, zero consumes the following empty line, a positive length
reads exactly that many raw bytes (binary safe) and then discards one line.
A negative length other than minus one makes the Go code panic on make with
a negative size; that dead branch is modelled as a parse failure. -/
def parseBulkString (s : List Nat) : Option (List Nat × List Nat) :=
  match readLine s with
  | none => none
  | some (line, rest) =>
    let t := trimSpace line
    if t.length = 0 then none
    else if t.headD 0 ≠ 36 then none
    else
      match goAtoiBytes (t.drop 1) with
      | none => none
      | some len =>
        if len = -1 then some ([], rest)
        else if len = 0 then some ([], dropThroughNewline rest)
        else if len < 0 then none
        else if rest.length < len.toNat then none
        else some (rest.take len.toNat, dropThroughNewline (rest.drop len.toNat))

/-- The loop inside parseArrayCommand: read count bulk strings in order. -/
def parseBulkStrings : Nat → List Nat → Option (List (List Nat) × List Nat)
  | 0, s => some ([], s)
  | k + 1, s =>
    match parseBulkString s with
    | none => none
    | some (a, s1) =>
      match parseBulkStrings k s1 with
      | none => none
      | some (as, s2) => some (a :: as, s2)

/-- parseArrayCommand (protocol.go): Atoi the count after the star byte of
the already-trimmed first line; a nonpositive count yields an empty argument
vector, otherwise that many bulk strings are read. -/
def parseArrayCommand (tline rest : List Nat) : Option (List (List Nat) × List Nat) :=
  match goAtoiBytes (tline.drop 1) with
  | none => none
  | some count =>
    if count ≤ 0 then some ([], rest)
    else parseBulkStrings count.toNat rest

/-- ParseCommand (protocol.go): read and trim one line; an empty line is an
error; a line opening with the star byte is an array command, any other line
is an inline command split into whitespace fields.  The second component is
the unconsumed remainder of the stream. -/
def ParseCommand (s : List Nat) : Option (List (List Nat) × List Nat) :=
  match readLine s with
  | none => none
  | some (line, rest) =>
    let t := trimSpace line
    if t.length = 0 then none
    else if t.headD 0 = 42 then parseArrayCommand t rest
    else some (fieldsBytes t, rest)

/-! ## Topology parsing (cluster.go parseSlotRange) -/

/-- SlotRange (cluster.go): a start and end slot, stored as Go ints. -/
structure SlotRange where
  start : Int
  stop : Int
deriving DecidableEq, Repr

/-- parseSlotRange (cluster.go): a field containing a dash (byte 45) must
split into exactly two Atoi-parsable parts, read as start and end; a field
without a dash is a single slot.  No range validation is performed. -/
def parseSlotRange (s : List Nat) : Option SlotRange :=
  if 45 ∈ s then
    match s.splitOn 45 with
    | [a, b] =>
      match goAtoiBytes a, goAtoiBytes b with
      | some x, some y => some ⟨x, y⟩
      | _, _ => none
    | _ => none
  else
    (goAtoiBytes s).map (fun n => ⟨n, n⟩)

/-- The indices written by the rebuild loop in parseClusterNodes for one
range: slot runs from start to end inclusive (empty when end is below
start, as the Go for loop then does not execute). -/
def slotWriteIndices (r : SlotRange) : List Int :=
  (List.range (r.stop + 1 - r.start).toNat).map (fun (i : Nat) => r.start + (i : Int))

/-! ## ShardMap queries (cluster.go) -/

/-- ClusterNode (cluster.go), restricted to the fields the router reads. -/
structure ClusterNode where
  address : List Nat
  isMaster : Bool
  health : Bool
deriving DecidableEq, Repr

/-- The cluster-manager state the routing functions read: the node list in
iteration order and the 16384-entry slot ownership array as a list. -/
structure ClusterState where
  nodes : List ClusterNode
  slots : List (List Nat)
deriving DecidableEq, Repr

/-- First element of the configured seed list, or the empty address when
the list is empty (the Go code returns the empty string then). -/
def seedFallback : List (List Nat) → List Nat
  | [] => []
  | s :: _ => s

/-- GetNodeForSlot (cluster.go): a bounds-guarded read of the slot array;
any slot outside zero to 16383 yields the empty address. -/
def GetNodeForSlot (slots : List (List Nat)) (slot : Int) : List Nat :=
  if 0 ≤ slot ∧ slot < 16384 then slots.getD slot.toNat [] else []

/-- GetNodeForKey (cluster.go): look up the slot of the key; when the stored
address is empty fall back to the first seed node if one is configured. -/
def GetNodeForKey (cm : ClusterState) (seeds : List (List Nat)) (key : List Nat) :
    List Nat :=
  let nodeAddr := cm.slots.getD (calculateSlot key) []
  if nodeAddr = [] then
    match seeds with
    | s :: _ => s
    | [] => nodeAddr
  else nodeAddr

/-- GetRandomNode (cluster.go): the first healthy master in iteration
order, else the first seed node, else the empty address. -/
def GetRandomNode (cm : ClusterState) (seeds : List (List Nat)) : List Nat :=
  match cm.nodes.find? (fun n => n.isMaster && n.health) with
  | some n => n.address
  | none => seedFallback seeds

/-! ## Router (proxy source selectBackendNode, selectNodeByKey) -/

/-- The verbs of the key-routed switch arms of selectBackendNode, uppercase
as the Go switch writes them. -/
def keyRoutedVerbs : List (List Nat) :=
  [strBytes ("GET"), strBytes ("SET"), strBytes ("GETSET"), strBytes ("SETNX"),
   strBytes ("SETEX"), strBytes ("PSETEX"), strBytes ("MGET"), strBytes ("MSET"),
   strBytes ("MSETNX"), strBytes ("INCR"), strBytes ("DECR"), strBytes ("INCRBY"),
   strBytes ("DECRBY"), strBytes ("INCRBYFLOAT"), strBytes ("APPEND"),
   strBytes ("STRLEN"), strBytes ("GETRANGE"), strBytes ("SETRANGE"),
   strBytes ("GETBIT"), strBytes ("SETBIT"), strBytes ("BITCOUNT"),
   strBytes ("BITOP"), strBytes ("HGET"), strBytes ("HSET"), strBytes ("HSETNX"),
   strBytes ("HMGET"), strBytes ("HMSET"), strBytes ("HGETALL"),
   strBytes ("HKEYS"), strBytes ("HVALS"), strBytes ("HLEN"),
   strBytes ("HEXISTS"), strBytes ("HDEL"), strBytes ("HINCRBY"),
   strBytes ("HINCRBYFLOAT"), strBytes ("HSCAN"), strBytes ("LPUSH"),
   strBytes ("RPUSH"), strBytes ("LPOP"), strBytes ("RPOP"), strBytes ("LLEN"),
   strBytes ("LRANGE"), strBytes ("LTRIM"), strBytes ("LINDEX"),
   strBytes ("LSET"), strBytes ("LREM"), strBytes ("LINSERT"),
   strBytes ("BLPOP"), strBytes ("BRPOP"), strBytes ("BRPOPLPUSH"),
   strBytes ("RPOPLPUSH"), strBytes ("SADD"), strBytes ("SREM"),
   strBytes ("SMEMBERS"), strBytes ("SCARD"), strBytes ("SISMEMBER"),
   strBytes ("SRANDMEMBER"), strBytes ("SPOP"), strBytes ("SMOVE"),
   strBytes ("SINTER"), strBytes ("SINTERSTORE"), strBytes ("SUNION"),
   strBytes ("SUNIONSTORE"), strBytes ("SDIFF"), strBytes ("SDIFFSTORE"),
   strBytes ("SSCAN"), strBytes ("ZADD"), strBytes ("ZREM"),
   strBytes ("ZSCORE"), strBytes ("ZINCRBY"), strBytes ("ZCARD"),
   strBytes ("ZCOUNT"), strBytes ("ZRANGE"), strBytes ("ZREVRANGE"),
   strBytes ("ZRANGEBYSCORE"), strBytes ("ZREVRANGEBYSCORE"),
   strBytes ("ZRANK"), strBytes ("ZREVRANK"), strBytes ("ZREMRANGEBYRANK"),
   strBytes ("ZREMRANGEBYSCORE"), strBytes ("ZUNIONSTORE"),
   strBytes ("ZINTERSTORE"), strBytes ("ZSCAN"), strBytes ("DEL"),
   strBytes ("EXISTS"), strBytes ("EXPIRE"), strBytes ("EXPIREAT"),
   strBytes ("TTL"), strBytes ("PTTL"), strBytes ("PERSIST"),
   strBytes ("TYPE"), strBytes ("RENAME"), strBytes ("RENAMENX"),
   strBytes ("MOVE"), strBytes ("DUMP"), strBytes ("RESTORE"),
   strBytes ("SORT"), strBytes ("TOUCH"), strBytes ("PFADD"),
   strBytes ("PFCOUNT"), strBytes ("PFMERGE"), strBytes ("BITFIELD"),
   strBytes ("XADD"), strBytes ("XREAD"), strBytes ("XREADGROUP"),
   strBytes ("XPENDING"), strBytes ("XCLAIM"), strBytes ("XACK"),
   strBytes ("XGROUP"), strBytes ("XINFO"), strBytes ("XLEN"),
   strBytes ("XRANGE"), strBytes ("XREVRANGE"), strBytes ("XTRIM"),
   strBytes ("XDEL")]

/-- selectNodeByKey (proxy source): with at least two arguments route by the
key at index one when that lookup yields a nonempty address; in every other
case fall back to the first configured seed node, or the empty address when
no seed is configured. -/
def selectNodeByKey (cm : ClusterState) (seeds : List (List Nat))
    (command : List (List Nat)) : List Nat :=
  if 1 < command.length then
    let key := command.getD 1 []
    let nodeAddr := GetNodeForKey cm seeds key
    if nodeAddr ≠ [] then nodeAddr
    else seedFallback seeds
  else seedFallback seeds

/-- selectBackendNode (proxy source): an empty command goes to a random
node; a verb in one of the key-routed switch arms goes through
selectNodeByKey; every other arm of the switch, including the default,
goes to a random node. -/
def selectBackendNode (cm : ClusterState) (seeds : List (List Nat))
    (command : List (List Nat)) : List Nat :=
  match command with
  | [] => GetRandomNode cm seeds
  | verb :: _ =>
    if toUpperBytes verb ∈ keyRoutedVerbs then selectNodeByKey cm seeds command
    else GetRandomNode cm seeds

/-! ## Redirect classification (protocol.go) -/

/-- IsMovedError (protocol.go): trim the response, require the MOVED error
prefix, split into whitespace fields and require at least three of them;
the second field is the slot, the third the target address. -/
def IsMovedError (response : List Nat) : Bool × List Nat × List Nat :=
  let r := trimSpace response
  if startsWithBytes (strBytes ("-MOVED ")) r then
    match fieldsBytes r with
    | _ :: slot :: addr :: _ => (true, slot, addr)
    | _ => (false, [], [])
  else (false, [], [])

/-- IsAskError (protocol.go): same shape as IsMovedError with the ASK
error prefix. -/
def IsAskError (response : List Nat) : Bool × List Nat × List Nat :=
  let r := trimSpace response
  if startsWithBytes (strBytes ("-ASK ")) r then
    match fieldsBytes r with
    | _ :: slot :: addr :: _ => (true, slot, addr)
    | _ => (false, [], [])
  else (false, [], [])

/-- shouldAutoRedirect (proxy source): false when the configuration
disables automatic redirects, false for the four exempt verbs, true
otherwise. -/
def shouldAutoRedirect (autoRedirect : Bool) (command : List (List Nat)) : Bool :=
  if !autoRedirect then false
  else
    match command with
    | [] => true
    | verb :: _ =>
      let c := toUpperBytes verb
      if c = strBytes ("CLUSTER") ∨ c = strBytes ("INFO") ∨ c = strBytes ("PING") ∨
         c = strBytes ("COMMAND") then false
      else true

/-! ## Session dispatch model (proxy source executeCommandWithRedirect,
handleAskRedirect)

The backend environment is a function from the global dispatch attempt
index and the target address to what the network does on that attempt.
Events record the externally visible actions of one request in order; a
dispatch event is recorded whenever sendCommandToBackend is invoked on a
backend connection, a returnedToPool event whenever the deferred
pool ReturnConnection runs at function exit. -/

/-- What the backend interaction does for one dispatch inside
executeCommandWithRedirect: connection acquisition failure, write failure,
reply read failure, or a complete reply. -/
inductive BackendStep where
  | connFail
  | sendFail
  | readFail
  | reply (response : List Nat)
deriving DecidableEq, Repr

/-- What the command phase of handleAskRedirect does after a successful
handshake: write failure, reply read failure, or a complete reply. -/
inductive CmdStep where
  | sendFail
  | readFail
  | reply (response : List Nat)
deriving DecidableEq, Repr

/-- What the network does for one handleAskRedirect call: connection
acquisition failure, ASKING write failure, handshake read failure, or the
handshake reply line followed by the command phase behaviour. -/
inductive AskStep where
  | connFail
  | writeFail
  | readFail
  | line (l : List Nat) (next : CmdStep)
deriving DecidableEq, Repr

/-- Externally visible actions of one request, in order. -/
inductive Event where
  | dispatch (addr : List Nat) (command : List (List Nat))
  | askingSent (addr : List Nat) (bytes : List Nat)
  | returnedToPool (addr : List Nat)
  | clientWrite (response : List Nat)
deriving DecidableEq, Repr

/-- Result of one request: normal completion, or the error the Go function
returns (which the connection handler then surfaces to the client as an
ERR reply while the session continues). -/
inductive Outcome where
  | ok
  | err (msg : String)
deriving DecidableEq, Repr

/-- handleAskRedirect (proxy source): acquire a connection to the redirect
target (returned to the pool by a defer in every later case), write the
inline handshake bytes ASKING CRLF, read one handshake line and require the
OK prefix, then send the original command once and forward its reply to the
client.  The depth argument is received but never consulted, exactly as in
the source. -/
def handleAskRedirect (askEnv : Nat → List Nat → AskStep)
    (command : List (List Nat)) (redirectAddr : List Nat)
    (_redirectCount k : Nat) : Outcome × List Event :=
  match askEnv k redirectAddr with
  | .connFail => (.err ("连接重定向节点失败"), [])
  | .writeFail => (.err ("发送ASKING命令失败"), [.returnedToPool redirectAddr])
  | .readFail =>
    (.err ("读取ASKING响应失败"),
     [.askingSent redirectAddr (strBytes ("ASKING") ++ [13, 10]),
      .returnedToPool redirectAddr])
  | .line l next =>
    let pre : List Event := [.askingSent redirectAddr (strBytes ("ASKING") ++ [13, 10])]
    if !startsWithBytes (strBytes ("+OK")) l then
      (.err ("ASKING命令响应错误"), pre ++ [.returnedToPool redirectAddr])
    else
      match next with
      | .sendFail =>
        (.err ("发送命令到重定向节点失败"),
         pre ++ [.dispatch redirectAddr command, .returnedToPool redirectAddr])
      | .readFail =>
        (.err ("读取重定向节点响应失败"),
         pre ++ [.dispatch redirectAddr command, .returnedToPool redirectAddr])
      | .reply response =>
        (.ok,
         pre ++ [.dispatch redirectAddr command, .clientWrite response,
                 .returnedToPool redirectAddr])

/-- executeCommandWithRedirect (proxy source).  The Go function recurses
with redirectCount + 1 and is guarded by the depth test at entry; the extra
fuel argument makes that recursion structural and is chosen large enough by
every caller that the fuel-exhaustion arm is unreachable (any fuel of at
least 7 minus redirectCount suffices, and the top-level call uses fuel 7
with redirectCount 0).  Each MOVED hop consumes one fuel unit together with
one increment of redirectCount, so the two guards coincide.

Flow per attempt: the depth guard, connection acquisition (with a deferred
return that fires at exit, hence after any recursion), command send, reply
read, then classification: a MOVED reply under shouldAutoRedirect recurses
on the new address; an ASK reply under shouldAutoRedirect calls
handleAskRedirect with depth plus one; everything else, including redirects
with auto redirect off, is forwarded to the client verbatim. -/
def executeCommandWithRedirect (env : Nat → List Nat → BackendStep)
    (askEnv : Nat → List Nat → AskStep) (autoRedirect : Bool)
    (command : List (List Nat)) :
    Nat → List Nat → Nat → Nat → Outcome × List Event
  | 0, _, _, _ => (.err ("重定向次数过多"), [])
  | fuel + 1, backendAddr, redirectCount, k =>
    if redirectCount > 5 then (.err ("重定向次数过多"), [])
    else
      match env k backendAddr with
      | .connFail => (.err ("连接后端Redis失败"), [])
      | .sendFail =>
        (.err ("发送命令到后端失败"),
         [.dispatch backendAddr command, .returnedToPool backendAddr])
      | .readFail =>
        (.err ("读取后端响应失败"),
         [.dispatch backendAddr command, .returnedToPool backendAddr])
      | .reply response =>
        let base : List Event := [.dispatch backendAddr command]
        let moved := IsMovedError response
        if moved.1 then
          if shouldAutoRedirect autoRedirect command then
            let r := executeCommandWithRedirect env askEnv autoRedirect command
              fuel moved.2.2 (redirectCount + 1) (k + 1)
            (r.1, base ++ r.2 ++ [.returnedToPool backendAddr])
          else
            (.ok, base ++ [.clientWrite response, .returnedToPool backendAddr])
        else
          let ask := IsAskError response
          if ask.1 then
            if shouldAutoRedirect autoRedirect command then
              let r := handleAskRedirect askEnv command ask.2.2 (redirectCount + 1) (k + 1)
              (r.1, base ++ r.2 ++ [.returnedToPool backendAddr])
            else
              (.ok, base ++ [.clientWrite response, .returnedToPool backendAddr])
          else
            (.ok, base ++ [.clientWrite response, .returnedToPool backendAddr])

/-- Number of dispatch events in a trace. -/
def dispatchCount (evs : List Event) : Nat :=
  (evs.filter (fun e => match e with | .dispatch _ _ => true | _ => false)).length

/-! ## Connection pool model (pool source NodePool) -/

/-- Observable state of one socket created by a NodePool.  The abandoned
state records a socket that the code dropped without calling Close on it
(the probe-failure path); it is distinct from closed. -/
inductive SockStatus where
  | inUse
  | idle
  | closed
  | abandoned
deriving DecidableEq, Repr

/-- NodePool (pool source): the bounded idle channel as a queue of socket
identifiers, the currentSize counter (a Go int, so modelled as Int), the
status ledger indexed by creation order, and the two capacity bounds
(both 10 in the source). -/
structure NodePoolState where
  idleQueue : List Nat
  currentSize : Int
  status : List SockStatus
  maxSize : Nat
  capacity : Nat
deriving DecidableEq, Repr

/-- createConnection (pool source): fail when currentSize has reached
maxSize or the dial fails; otherwise a fresh socket is created, the counter
is incremented and the socket is handed out. -/
def createConnection (dialOk : Bool) (st : NodePoolState) :
    Option Nat × NodePoolState :=
  if st.currentSize ≥ (st.maxSize : Int) then (none, st)
  else if !dialOk then (none, st)
  else
    (some st.status.length,
     { st with currentSize := st.currentSize + 1,
               status := st.status ++ [.inUse] })

/-- GetConnection on a NodePool (pool source): pop an idle socket when one
is queued and probe it; on probe success hand it out, on probe failure drop
the reference without closing it or touching currentSize and create a new
connection; with an empty queue create a new connection. -/
def NodePoolGetConnection (probeOk dialOk : Bool) (st : NodePoolState) :
    Option Nat × NodePoolState :=
  match st.idleQueue with
  | c :: rest =>
    if probeOk then
      (some c, { st with idleQueue := rest, status := st.status.set c .inUse })
    else
      createConnection dialOk
        { st with idleQueue := rest, status := st.status.set c .abandoned }
  | [] => createConnection dialOk st

/-- ReturnConnection on a NodePool (pool source): enqueue the socket when
the idle channel has room; otherwise close it and decrement currentSize. -/
def NodePoolReturnConnection (c : Nat) (st : NodePoolState) : NodePoolState :=
  if st.idleQueue.length < st.capacity then
    { st with idleQueue := st.idleQueue ++ [c], status := st.status.set c .idle }
  else
    { st with status := st.status.set c .closed, currentSize := st.currentSize - 1 }

/-! ## Concrete scenario data used by the claim theorems -/

/-- A cluster state with no nodes and an empty slot array. -/
def cmEmpty : ClusterState := ⟨[], []⟩

/-- A two-argument GET command. -/
def cmdC3 : List (List Nat) := [strBytes ("GET"), strBytes ("x")]

/-- Backend behaviour: MOVED on the first five dispatch attempts, ASK on
the sixth. -/
def envC3 (k : Nat) (_addr : List Nat) : BackendStep :=
  if k < 5 then .reply (strBytes ("-MOVED 100 n") ++ natAscii (k + 1) ++ [13, 10])
  else .reply (strBytes ("-ASK 100 askt") ++ [13, 10])

/-- Ask-handler behaviour: successful handshake, then a normal reply. -/
def askEnvC3 (_k : Nat) (_addr : List Nat) : AskStep :=
  .line (strBytes ("+OK") ++ [13, 10]) (.reply (strBytes ("+PONG") ++ [13, 10]))

/-- Backend behaviour: MOVED on every dispatch attempt. -/
def envC3Moved (_k : Nat) (_addr : List Nat) : BackendStep :=
  .reply (strBytes ("-MOVED 100 nx") ++ [13, 10])

/-- A two-argument GET command. -/
def cmdC4 : List (List Nat) := [strBytes ("GET"), strBytes ("k")]

/-- Backend behaviour: the reply read fails on every dispatch attempt. -/
def envC4 (_k : Nat) (_addr : List Nat) : BackendStep := .readFail

/-- Ask-handler behaviour, unreachable in the C4 scenario. -/
def askEnvC4 (_k : Nat) (_addr : List Nat) : AskStep :=
  .line (strBytes ("+OK") ++ [13, 10]) (.reply (strBytes ("+PONG") ++ [13, 10]))

/-- A two-argument GET command. -/
def cmdC5 : List (List Nat) := [strBytes ("GET"), strBytes ("y")]

/-- Ask-handler behaviour: successful handshake, then a normal reply. -/
def askEnvC5 (_k : Nat) (_addr : List Nat) : AskStep :=
  .line (strBytes ("+OK") ++ [13, 10]) (.reply (strBytes ("+PONG") ++ [13, 10]))

/-- Ask-handler behaviour: the handshake line is an error reply. -/
def askEnvC5Bad (_k : Nat) (_addr : List Nat) : AskStep :=
  .line (strBytes ("-ERR handshake") ++ [13, 10])
    (.reply (strBytes ("+PONG") ++ [13, 10]))

/-- A fresh NodePool as the source constructs it: empty idle channel, zero
counter, both bounds 10. -/
def poolInit : NodePoolState := ⟨[], 0, [], 10, 10⟩

set_option maxRecDepth 100000

/-! ## Helper lemmas: decimal digits -/

theorem natAsciiRevFuel_digits (fuel n : Nat) :
    ∀ b ∈ natAsciiRevFuel fuel n, 48 ≤ b ∧ b ≤ 57 := by
  induction fuel generalizing n with
  | zero =>
    intro b hb
    simp only [natAsciiRevFuel, List.mem_singleton] at hb
    subst hb
    have : n % 10 < 10 := Nat.mod_lt _ (by omega)
    omega
  | succ fuel ih =>
    intro b hb
    simp only [natAsciiRevFuel] at hb
    by_cases h : n < 10
    · rw [if_pos h] at hb
      simp only [List.mem_singleton] at hb
      omega
    · rw [if_neg h] at hb
      rcases List.mem_cons.mp hb with h1 | h1
      · have : n % 10 < 10 := Nat.mod_lt _ (by omega)
        omega
      · exact ih _ b h1

theorem natAsciiRevFuel_ne_nil (fuel n : Nat) : natAsciiRevFuel fuel n ≠ [] := by
  cases fuel with
  | zero => simp [natAsciiRevFuel]
  | succ fuel =>
    simp only [natAsciiRevFuel]
    by_cases h : n < 10
    · simp [h]
    · simp [h]

theorem natAscii_digits (n : Nat) : ∀ b ∈ natAscii n, 48 ≤ b ∧ b ≤ 57 := by
  intro b hb
  exact natAsciiRevFuel_digits n n b (List.mem_reverse.mp hb)

theorem natAscii_ne_nil (n : Nat) : natAscii n ≠ [] := by
  simp only [natAscii, natAsciiRev, ne_eq, List.reverse_eq_nil_iff]
  exact natAsciiRevFuel_ne_nil n n

theorem parseDigitsAux_append (l1 l2 : List Nat) (acc : Nat) :
    parseDigitsAux (l1 ++ l2) acc =
      match parseDigitsAux l1 acc with
      | some a => parseDigitsAux l2 a
      | none => none := by
  induction l1 generalizing acc with
  | nil => simp [parseDigitsAux]
  | cons b rest ih =>
    simp only [List.cons_append, parseDigitsAux]
    cases digitVal b with
    | none => rfl
    | some d => exact ih _

theorem parseDigitsAux_natAsciiRevFuel (fuel : Nat) :
    ∀ n acc, n ≤ fuel →
      parseDigitsAux (natAsciiRevFuel fuel n).reverse acc =
        some (acc * 10 ^ (natAsciiRevFuel fuel n).length + n) := by
  induction fuel with
  | zero =>
    intro n acc hn
    interval_cases n
    simp [natAsciiRevFuel, parseDigitsAux, digitVal]
  | succ fuel ih =>
    intro n acc hn
    by_cases h : n < 10
    · simp only [natAsciiRevFuel, if_pos h, List.reverse_singleton, parseDigitsAux,
        digitVal, List.length_singleton]
      rw [if_pos (by omega)]
      simp only [parseDigitsAux]
      congr 1
      omega
    · have hdiv : n / 10 ≤ fuel := by
        have : n / 10 < n := Nat.div_lt_self (by omega) (by omega)
        omega
      simp only [natAsciiRevFuel, if_neg h, List.reverse_cons,
        parseDigitsAux_append, ih (n / 10) acc hdiv]
      simp only [parseDigitsAux, digitVal]
      have hm : n % 10 < 10 := Nat.mod_lt _ (by omega)
      rw [if_pos (by omega)]
      simp only [parseDigitsAux, List.length_cons, Option.some.injEq]
      have hd : 48 + n % 10 - 48 = n % 10 := by omega
      rw [hd]
      ring_nf
      have : 10 * (n / 10) + n % 10 = n := Nat.div_add_mod n 10
      omega

theorem parseDigits_natAscii (n : Nat) : parseDigits (natAscii n) = some n := by
  have hne := natAscii_ne_nil n
  have hval := parseDigitsAux_natAsciiRevFuel n n 0 (le_refl n)
  cases hA : natAscii n with
  | nil => exact absurd hA hne
  | cons b rest =>
    simp only [parseDigits]
    rw [← hA]
    simpa only [natAscii, natAsciiRev, Nat.zero_mul, Nat.zero_add] using hval

theorem goAtoiBytes_natAscii (n : Nat) : goAtoiBytes (natAscii n) = some (n : Int) := by
  have hd := natAscii_digits n
  have hp := parseDigits_natAscii n
  cases hA : natAscii n with
  | nil => exact absurd hA (natAscii_ne_nil n)
  | cons b rest =>
    have hb : 48 ≤ b ∧ b ≤ 57 := hd b (by rw [hA]; exact List.mem_cons_self b rest)
    simp only [goAtoiBytes]
    rw [if_neg (by omega), if_neg (by omega), ← hA, hp]
    rfl

/-! ## Helper lemmas: lines, trimming, bulk strings -/

theorem digit_not_space (b : Nat) (h1 : 48 ≤ b) (h2 : b ≤ 57) :
    isSpaceByte b = false := by
  simp only [isSpaceByte, Bool.or_eq_false_iff, decide_eq_false_iff_not]
  omega

theorem readLine_append (xs rest : List Nat) (h : ∀ b ∈ xs, b ≠ 10) :
    readLine (xs ++ 10 :: rest) = some (xs ++ [10], rest) := by
  induction xs with
  | nil => simp [readLine]
  | cons b t ih =>
    have hb : b ≠ 10 := h b (List.mem_cons_self b t)
    simp only [List.cons_append, readLine, if_neg hb, List.append_eq]
    rw [ih (fun x hx => h x (List.mem_cons_of_mem b hx))]

theorem dropWhile_eq_self_of_not (l : List Nat)
    (h : ∀ b ∈ l, isSpaceByte b = false) : l.dropWhile isSpaceByte = l := by
  cases l with
  | nil => rfl
  | cons b t =>
    simp [List.dropWhile, h b (List.mem_cons_self b t)]

theorem trimSpace_crlf (l : List Nat) (h : ∀ b ∈ l, isSpaceByte b = false)
    (hne : l ≠ []) : trimSpace (l ++ [13, 10]) = l := by
  cases l with
  | nil => exact absurd rfl hne
  | cons b t =>
    have hb : isSpaceByte b = false := h b (List.mem_cons_self b t)
    simp only [trimSpace, List.cons_append, List.dropWhile, hb, List.append_eq]
    have hrev : (b :: (t ++ [13, 10])).reverse = 10 :: 13 :: (b :: t).reverse := by
      simp
    rw [hrev]
    have h13 : isSpaceByte 13 = true := by decide
    have h10 : isSpaceByte 10 = true := by decide
    simp only [List.dropWhile, h13, h10]
    rw [dropWhile_eq_self_of_not _ (by
      intro x hx
      exact h x (List.mem_reverse.mp hx))]
    simp

theorem parseBulkString_encodeArg (a t : List Nat) :
    parseBulkString (encodeArg a ++ t) = some (a, t) := by
  have hshape : encodeArg a ++ t =
      (36 :: natAscii a.length ++ [13]) ++ 10 :: (a ++ [13, 10] ++ t) := by
    simp [encodeArg]
  have hno10 : ∀ b ∈ 36 :: natAscii a.length ++ [13], b ≠ 10 := by
    intro b hb
    rcases List.mem_cons.mp hb with h1 | h1
    · omega
    · rcases List.mem_append.mp h1 with h2 | h2
      · have := natAscii_digits a.length b h2
        omega
      · simp only [List.mem_singleton] at h2
        omega

  have hline : (36 :: natAscii a.length ++ [13]) ++ [10] =
      (36 :: natAscii a.length) ++ [13, 10] := by simp
  have htrim : trimSpace ((36 :: natAscii a.length) ++ [13, 10]) =
      36 :: natAscii a.length := by
    apply trimSpace_crlf
    · intro b hb
      rcases List.mem_cons.mp hb with h1 | h1
      · subst h1; decide
      · have := natAscii_digits a.length b h1
        exact digit_not_space b this.1 this.2
    · simp
  rw [hshape]
  simp only [parseBulkString, readLine_append _ _ hno10, hline, htrim]
  rw [if_neg (by simp), if_neg (by simp)]
  simp only [List.drop_one, List.tail_cons, goAtoiBytes_natAscii]
  by_cases ha : a = []
  · subst ha
    simp only [List.length_nil, Nat.cast_zero]
    rw [if_neg (by omega)]
    simp [dropThroughNewline, readLine]
  · have hlen : 0 < a.length := List.length_pos.mpr ha
    rw [if_neg (by omega), if_neg (by omega), if_neg (by omega)]
    have htoNat : ((a.length : Int)).toNat = a.length := Int.toNat_natCast a.length
    rw [if_neg (by
      rw [htoNat]
      simp only [List.append_assoc, List.length_append]
      omega)]
    rw [htoNat]
    have hassoc : a ++ [13, 10] ++ t = a ++ ([13, 10] ++ t) := by simp
    rw [hassoc, List.take_left, List.drop_left]
    have : dropThroughNewline ([13, 10] ++ t) = t := by
      simp [dropThroughNewline, readLine]
    rw [this]

theorem parseBulkStrings_encodeArgs (args : List (List Nat)) (t : List Nat) :
    parseBulkStrings args.length (encodeArgs args ++ t) = some (args, t) := by
  induction args generalizing t with
  | nil => simp [parseBulkStrings, encodeArgs]
  | cons a rest ih =>
    simp only [List.length_cons, parseBulkStrings, encodeArgs, List.append_assoc,
      parseBulkString_encodeArg, ih]

/-! ## Helper lemmas: dispatch counting -/

theorem dispatchCount_append (l1 l2 : List Event) :
    dispatchCount (l1 ++ l2) = dispatchCount l1 + dispatchCount l2 := by
  simp [dispatchCount, List.filter_append]

theorem handleAskRedirect_dispatch_le (askEnv : Nat → List Nat → AskStep)
    (cmd : List (List Nat)) (addr : List Nat) (c k : Nat) :
    dispatchCount (handleAskRedirect askEnv cmd addr c k).2 ≤ 1 := by
  unfold handleAskRedirect
  cases askEnv k addr with
  | connFail => simp [dispatchCount]
  | writeFail => simp [dispatchCount]
  | readFail => simp [dispatchCount]
  | line l next =>
    by_cases h : startsWithBytes (strBytes ("+OK")) l
    · simp only [h, Bool.not_true, Bool.false_eq_true, if_false]
      cases next <;> simp [dispatchCount]
    · simp only [Bool.not_eq_true] at h
      simp [h, dispatchCount]

theorem executeCommandWithRedirect_dispatch_le
    (env : Nat → List Nat → BackendStep) (askEnv : Nat → List Nat → AskStep)
    (autoRedirect : Bool) (cmd : List (List Nat)) (fuel : Nat) :
    ∀ addr c k,
      dispatchCount (executeCommandWithRedirect env askEnv autoRedirect cmd
        fuel addr c k).2 ≤ (6 - c) + 1 := by
  induction fuel with
  | zero =>
    intro addr c k
    simp [executeCommandWithRedirect, dispatchCount]
  | succ fuel ih =>
    intro addr c k
    simp only [executeCommandWithRedirect]
    by_cases hc : c > 5
    · simp [hc, dispatchCount]
    · rw [if_neg hc]
      cases env k addr with
      | connFail => simp [dispatchCount]
      | sendFail => simp [dispatchCount]
      | readFail => simp [dispatchCount]
      | reply response =>
        by_cases hm : (IsMovedError response).1
        · simp only [hm, if_true]
          by_cases hs : shouldAutoRedirect autoRedirect cmd
          · simp only [hs, if_true, dispatchCount_append]
            have := ih (IsMovedError response).2.2 (c + 1) (k + 1)
            have h1 : dispatchCount [Event.dispatch addr cmd] = 1 := by
              simp [dispatchCount]
            have h2 : dispatchCount [Event.returnedToPool addr] = 0 := by
              simp [dispatchCount]
            omega
          · simp only [hs, if_false]
            simp [dispatchCount]
        · simp only [hm, Bool.false_eq_true, if_false]
          by_cases ha : (IsAskError response).1
          · simp only [ha, if_true]
            by_cases hs : shouldAutoRedirect autoRedirect cmd
            · simp only [hs, if_true, dispatchCount_append]
              have := handleAskRedirect_dispatch_le askEnv cmd
                (IsAskError response).2.2 (c + 1) (k + 1)
              have h1 : dispatchCount [Event.dispatch addr cmd] = 1 := by
                simp [dispatchCount]
              have h2 : dispatchCount [Event.returnedToPool addr] = 0 := by
                simp [dispatchCount]
              omega
            · simp only [hs, if_false]
              simp [dispatchCount]
          · simp only [ha, if_false]
            simp [dispatchCount]

/-! ## Claim C1 -/

/-- Claim C1, counterexample.  The claim states that crc16CCITT maps the
string 123456789 to 0x29B1, maps foo to 0x7B30, and that the slot of foo
is 7365.  Evaluating the code refutes all three at those concrete inputs:
crc16CCITT of 123456789 is 12739 (0x31C3, the value of the init-zero
variant the code implements, not 0x29B1 = 10673), crc16CCITT of foo is
44950 (0xAF96, not 0x7B30 = 31536), and the slot of foo is 12182, not
7365. -/
theorem c1_claim_counterexample :
    crc16CCITT (strBytes ("123456789")) = 12739 ∧ (12739 : Nat) ≠ 0x29B1 ∧
    crc16CCITT (strBytes ("foo")) = 44950 ∧ (44950 : Nat) ≠ 0x7B30 ∧
    calculateSlot (strBytes ("foo")) = 12182 ∧ (12182 : Nat) ≠ 7365 := by
  decide

/-- Claim C1, amended.  The slot computation meets the test vectors of the
algorithm the code implements (polynomial 0x1021, initial value 0x0000, no
reflection, no final xor, slot is the CRC modulo 16384): the empty string
has CRC 0x0000; 123456789 has CRC 0x31C3; foo has CRC 0xAF96 and slot
12182; the key left-brace foo right-brace bar has slot 12182, the slot of
its hash tag foo. -/
theorem c1_slot_test_vectors :
    crc16CCITT (strBytes ("")) = 0x0000 ∧
    crc16CCITT (strBytes ("123456789")) = 0x31C3 ∧
    crc16CCITT (strBytes ("foo")) = 0xAF96 ∧
    calculateSlot (strBytes ("foo")) = 12182 ∧
    calculateSlot (strBytes ("\x7bfoo\x7dbar")) = 12182 := by
  decide

/-! ## Claim C2 -/

/-- Claim C2, code evaluation at the failing input.  The claim (with the
spec) states that an empty hash tag must never be hashed: for the key
left-brace right-brace abc the whole key should be used, giving slot 5980.
The code instead extracts the empty routing substring and hashes it,
giving slot 0 (the slot of the empty string).  The remaining edge cases of
the claim do hold: a key with an unclosed brace is hashed whole, and the
tag of left-brace a right-brace left-brace b right-brace is a. -/
theorem c2_empty_hashtag_divergence :
    calculateSlot (strBytes ("\x7b\x7dabc")) = 0 ∧
    calculateSlot (strBytes ("\x7b\x7dabc")) = crc16CCITT [] % 16384 ∧
    crc16CCITT (strBytes ("\x7b\x7dabc")) % 16384 = 5980 ∧
    calculateSlot (strBytes ("\x7ba\x7d\x7bb\x7d")) = calculateSlot (strBytes ("a")) ∧
    calculateSlot (strBytes ("abc\x7b")) = crc16CCITT (strBytes ("abc\x7b")) % 16384 ∧
    calculateSlot (strBytes ("\x7b")) = crc16CCITT (strBytes ("\x7b")) % 16384 := by
  decide

/-! ## Claim C3 -/

/-- Claim C3, counterexample.  The claim bounds the dispatches of one
request by 6.  With auto redirect on, a backend that answers MOVED on the
first five attempts and ASK on the sixth drives the request to 7 dispatches
with no error: handleAskRedirect performs its own dispatch without any
depth check. -/
theorem c3_claim_counterexample :
    dispatchCount (executeCommandWithRedirect envC3 askEnvC3 true cmdC3 7
      (strBytes ("n0")) 0 0).2 = 7 ∧
    (executeCommandWithRedirect envC3 askEnvC3 true cmdC3 7
      (strBytes ("n0")) 0 0).1 = Outcome.ok := by
  decide

/-- Claim C3, amended.  With auto redirect enabled a request is dispatched
at most 7 times: at most 6 dispatches happen on the MOVED chain (original
attempt plus 5 followed redirects), and an ASK answer on the last of them
adds one further dispatch inside the depth-unchecked ASK handler.  When a
MOVED redirect would require a seventh MOVED-chain dispatch the request
ends with the too-many-redirections error after exactly 6 dispatches and
is not forwarded further. -/
theorem c3_redirect_bound :
    (∀ (env : Nat → List Nat → BackendStep) (askEnv : Nat → List Nat → AskStep)
      (cmd : List (List Nat)) (addr : List Nat),
      dispatchCount (executeCommandWithRedirect env askEnv true cmd 7 addr 0 0).2 ≤ 7) ∧
    (executeCommandWithRedirect envC3Moved askEnvC3 true cmdC3 7
      (strBytes ("n0")) 0 0).1 = Outcome.err ("重定向次数过多") ∧
    dispatchCount (executeCommandWithRedirect envC3Moved askEnvC3 true cmdC3 7
      (strBytes ("n0")) 0 0).2 = 6 := by
  refine ⟨?_, by decide, by decide⟩
  intro env askEnv cmd addr
  have h := executeCommandWithRedirect_dispatch_le env askEnv true cmd 7 addr 0 0
  simpa using h

/-! ## Claim C4 -/

/-- Claim C4, code evaluation at the failing input.  The claim states that
on a backend reply read failure the socket is closed and never returned to
the pool.  Evaluating the code on a backend whose reply read fails shows
the request ends with the read error and the trace ends with the deferred
pool return of the socket (no close): the deferred ReturnConnection runs
unconditionally, and on a pool with free capacity it re-queues the socket
as idle instead of closing it. -/
theorem c4_backend_error_repools_socket :
    executeCommandWithRedirect envC4 askEnvC4 true cmdC4 7 (strBytes ("n1")) 0 0 =
      (Outcome.err ("读取后端响应失败"),
       [Event.dispatch (strBytes ("n1")) cmdC4,
        Event.returnedToPool (strBytes ("n1"))]) ∧
    NodePoolReturnConnection 0 ⟨[], 1, [SockStatus.inUse], 10, 10⟩ =
      ⟨[0], 1, [SockStatus.idle], 10, 10⟩ := by
  decide

/-! ## Claim C5 -/

/-- Claim C5, counterexample.  The claim states that the handshake bytes
sent before resending the command on an ASK redirect are the RESP array
form of ASKING.  Running the ASK handler on a successful scenario shows the
bytes actually written are the inline form, ASKING followed by CRLF, which
differs from the bytes the claim names. -/
theorem c5_claim_counterexample :
    (handleAskRedirect askEnvC5 cmdC5 (strBytes ("n2")) 1 1).2 =
      [Event.askingSent (strBytes ("n2")) (strBytes ("ASKING") ++ [13, 10]),
       Event.dispatch (strBytes ("n2")) cmdC5,
       Event.clientWrite (strBytes ("+PONG") ++ [13, 10]),
       Event.returnedToPool (strBytes ("n2"))] ∧
    strBytes ("ASKING") ++ [13, 10] ≠ strBytes ("*1\r\n$6\r\nASKING\r\n") := by
  decide

/-- Claim C5, amended.  On an ASK redirect with auto redirect enabled the
proxy sends exactly the inline handshake bytes ASKING CRLF to the redirect
target, dispatches the original command only after reading a handshake
line carrying the OK prefix, and a handshake line without that prefix
produces an error outcome for that request only (which the session loop
surfaces as an ERR reply and continues). -/
theorem c5_ask_handshake :
    ∀ (askEnv : Nat → List Nat → AskStep) (cmd : List (List Nat))
      (addr : List Nat) (c k : Nat),
    (∀ a b, Event.askingSent a b ∈ (handleAskRedirect askEnv cmd addr c k).2 →
      b = strBytes ("ASKING") ++ [13, 10]) ∧
    (∀ a c2, Event.dispatch a c2 ∈ (handleAskRedirect askEnv cmd addr c k).2 →
      ∃ l next, askEnv k addr = AskStep.line l next ∧
        startsWithBytes (strBytes ("+OK")) l = true) ∧
    (∀ l next, askEnv k addr = AskStep.line l next →
      startsWithBytes (strBytes ("+OK")) l = false →
      (handleAskRedirect askEnv cmd addr c k).1 = Outcome.err ("ASKING命令响应错误")) := by
  intro askEnv cmd addr c k
  unfold handleAskRedirect
  cases h : askEnv k addr with
  | connFail =>
    refine ⟨?_, ?_, ?_⟩
    · intro a b hb; simp at hb
    · intro a c2 hc2; simp at hc2
    · intro l next hl; simp [h] at hl
  | writeFail =>
    refine ⟨?_, ?_, ?_⟩
    · intro a b hb; simp at hb
    · intro a c2 hc2; simp at hc2
    · intro l next hl; simp [h] at hl
  | readFail =>
    refine ⟨?_, ?_, ?_⟩
    · intro a b hb; simp at hb; exact hb.2
    · intro a c2 hc2; simp at hc2
    · intro l next hl; simp [h] at hl
  | line l next =>
    by_cases hs : startsWithBytes (strBytes ("+OK")) l
    · simp only [hs, Bool.not_true, Bool.false_eq_true, if_false]
      refine ⟨?_, ?_, ?_⟩
      · intro a b hb
        cases next <;> simp at hb <;> tauto
      · intro a c2 _
        exact ⟨l, next, rfl, hs⟩
      · intro l2 next2 hl2 hstart
        injection hl2 with h1 h2
        subst h1
        rw [hs] at hstart
        exact absurd hstart (by simp)
    · simp only [Bool.not_eq_true] at hs
      simp only [hs, Bool.not_false, if_true]
      refine ⟨?_, ?_, ?_⟩
      · intro a b hb
        simp at hb
        tauto
      · intro a c2 hc2; simp at hc2
      · intro l2 next2 hl2 hstart
        exact trivial

/-- Claim C5, witness.  The amended theorem applied to a concrete
environment whose handshake line is an error reply: the handler yields the
handshake error outcome. -/
theorem c5_ask_handshake_witness :
    (handleAskRedirect askEnvC5Bad cmdC5 (strBytes ("n2")) 1 1).1 =
      Outcome.err ("ASKING命令响应错误") :=
  (c5_ask_handshake askEnvC5Bad cmdC5 (strBytes ("n2")) 1 1).2.2
    (strBytes ("-ERR handshake") ++ [13, 10])
    (CmdStep.reply (strBytes ("+PONG") ++ [13, 10])) (by decide) (by decide)

/-! ## Claim C6 -/

/-- Claim C6, code evaluation at the failing input.  The claim states that
an idle socket failing the liveness probe is closed and gives up its slot
in currentSize.  Starting from a fresh pool: create a socket, return it,
then acquire with a failing probe.  The code abandons the probe-failed
socket without closing it (status abandoned, not closed) and currentSize
stays at 2, still counting the dead socket, so its slot is never given
up. -/
theorem c6_probe_failure_leaks_socket :
    NodePoolGetConnection false true
        (NodePoolReturnConnection 0 (NodePoolGetConnection true true poolInit).2) =
      (some 1, ⟨[], 2, [SockStatus.abandoned, SockStatus.inUse], 10, 10⟩) ∧
    SockStatus.abandoned ≠ SockStatus.closed := by
  decide

/-! ## Claim C7 -/

/-- Claim C7.  For every command, framing it with the backend serializer
and parsing the resulting bytes with ParseCommand yields exactly the same
argument vector with no bytes left over; the bulk payloads are read by
length, so the round trip is binary safe. -/
theorem c7_format_parse_round_trip (args : List (List Nat)) :
    ParseCommand (sendCommandToBackend args) = some (args, []) := by
  have hshape : sendCommandToBackend args =
      (42 :: natAscii args.length ++ [13]) ++ 10 :: encodeArgs args := by
    simp [sendCommandToBackend]
  have hno10 : ∀ b ∈ 42 :: natAscii args.length ++ [13], b ≠ 10 := by
    intro b hb
    rcases List.mem_cons.mp hb with h1 | h1
    · omega
    · rcases List.mem_append.mp h1 with h2 | h2
      · have := natAscii_digits args.length b h2
        omega
      · simp only [List.mem_singleton] at h2
        omega
  have hline : (42 :: natAscii args.length ++ [13]) ++ [10] =
      (42 :: natAscii args.length) ++ [13, 10] := by simp
  have htrim : trimSpace ((42 :: natAscii args.length) ++ [13, 10]) =
      42 :: natAscii args.length := by
    apply trimSpace_crlf
    · intro b hb
      rcases List.mem_cons.mp hb with h1 | h1
      · subst h1; decide
      · have := natAscii_digits args.length b h1
        exact digit_not_space b this.1 this.2
    · simp
  rw [hshape]
  simp only [ParseCommand, readLine_append _ _ hno10, hline, htrim]
  rw [if_neg (by simp), if_pos (by simp)]
  simp only [parseArrayCommand, List.drop_one, List.tail_cons, goAtoiBytes_natAscii]
  by_cases hargs : args = []
  · subst hargs
    simp [parseBulkStrings, encodeArgs]
  · have hlen : 0 < args.length := List.length_pos.mpr hargs
    rw [if_neg (by omega)]
    have htoNat : ((args.length : Int)).toNat = args.length := Int.toNat_natCast _
    rw [htoNat]
    have := parseBulkStrings_encodeArgs args []
    simpa using this

/-! ## Claim C8 -/

/-- Every slot between the start and the end of a range is among the
indices its rebuild loop writes. -/
theorem mem_slotWriteIndices (r : SlotRange) (i : Int)
    (h1 : r.start ≤ i) (h2 : i ≤ r.stop) : i ∈ slotWriteIndices r := by
  have e1 : (((i - r.start).toNat : Nat) : Int) = i - r.start :=
    Int.toNat_of_nonneg (by omega)
  have e2 : (((r.stop + 1 - r.start).toNat : Nat) : Int) = r.stop + 1 - r.start :=
    Int.toNat_of_nonneg (by omega)
  have hlt : (i - r.start).toNat < (r.stop + 1 - r.start).toNat := by
    have h : (((i - r.start).toNat : Nat) : Int) <
        (((r.stop + 1 - r.start).toNat : Nat) : Int) := by
      rw [e1, e2]; omega
    exact_mod_cast h
  have heq : i = r.start + (((i - r.start).toNat : Nat) : Int) := by
    rw [e1]; omega
  rw [heq, slotWriteIndices]
  exact List.mem_map_of_mem _ (List.mem_range.mpr hlt)

/-- Claim C8, counterexample.  The claim states that every SlotRange
produced by parsing satisfies the slot bounds for every possible topology
input.  The parser performs no validation: the slot-spec field 0-16384
parses successfully into a range whose end exceeds 16383, and the rebuild
loop for that range writes index 16384, outside the slot array. -/
theorem c8_claim_counterexample :
    parseSlotRange (strBytes ("0-16384")) = some ⟨0, 16384⟩ ∧
    ¬ ((16384 : Int) ≤ 16383) ∧
    (16384 : Int) ∈ slotWriteIndices ⟨0, 16384⟩ := by
  refine ⟨by decide, by decide, ?_⟩
  exact mem_slotWriteIndices ⟨0, 16384⟩ 16384 (by decide) (by decide)

/-- Claim C8, amended.  parseSlotRange performs no range validation, so
only for topology inputs whose numeric slot fields lie inside the slot
space do the parsed ranges satisfy the bounds; for every range parsed from
such a field (nonnegative start, end at most 16383) the rebuild loop
writes only indices between 0 and 16383. -/
theorem c8_slot_write_bounds (s : List Nat) (r : SlotRange)
    (hp : parseSlotRange s = some r) (h0 : 0 ≤ r.start) (h1 : r.stop ≤ 16383) :
    ∀ i ∈ slotWriteIndices r, 0 ≤ i ∧ i ≤ 16383 := by
  intro i hi
  rw [slotWriteIndices] at hi
  obtain ⟨j, hjr, rfl⟩ := List.mem_map.mp hi
  have hj : j < (r.stop + 1 - r.start).toNat := List.mem_range.mp hjr
  have hj0 : 0 ≤ ((j : Nat) : Int) := Int.natCast_nonneg j
  by_cases hpos : 0 ≤ r.stop + 1 - r.start
  · have e2 : (((r.stop + 1 - r.start).toNat : Nat) : Int) = r.stop + 1 - r.start :=
      Int.toNat_of_nonneg hpos
    have hlt : ((j : Nat) : Int) < r.stop + 1 - r.start := by
      rw [← e2]; exact_mod_cast hj
    constructor
    · omega
    · omega
  · have hz : (r.stop + 1 - r.start).toNat = 0 := Int.toNat_of_nonpos (by omega)
    rw [hz] at hj
    omega

/-- Claim C8, witness.  The amended theorem applied to the well-formed
slot-spec 0-5460 at the first written index. -/
theorem c8_slot_write_bounds_witness :
    0 ≤ (0 : Int) ∧ (0 : Int) ≤ 16383 :=
  c8_slot_write_bounds (strBytes ("0-5460")) ⟨0, 5460⟩ (by decide) (by decide)
    (by decide) 0 (mem_slotWriteIndices ⟨0, 5460⟩ 0 (by decide) (by decide))

/-! ## Claim C9 -/

/-- Claim C9.  A command whose verb is in one of the key-routed switch arms
but which has fewer than two arguments is routed to the first configured
seed node. -/
theorem c9_keyrouted_short_command_fallback (cm : ClusterState)
    (seeds : List (List Nat)) (command : List (List Nat))
    (h1 : toUpperBytes (command.headD []) ∈ keyRoutedVerbs)
    (h2 : command.length < 2) (h3 : seeds ≠ []) :
    selectBackendNode cm seeds command = seeds.headD [] := by
  cases command with
  | nil =>
    simp only [List.headD_nil] at h1
    exact absurd h1 (by decide)
  | cons v rest =>
    have hr : rest = [] := by
      simp only [List.length_cons] at h2
      exact List.eq_nil_of_length_eq_zero (by omega)
    subst hr
    simp only [List.headD_cons] at h1
    simp only [selectBackendNode, if_pos h1, selectNodeByKey, List.length_singleton]
    rw [if_neg (by omega)]
    cases seeds with
    | nil => exact absurd rfl h3
    | cons s ss => rfl

/-- Claim C9, witness.  The theorem applied to a one-argument GET command
with a single configured seed node. -/
theorem c9_keyrouted_short_command_fallback_witness :
    selectBackendNode cmEmpty [strBytes ("127.0.0.1:7000")] [strBytes ("GET")] =
      [strBytes ("127.0.0.1:7000")].headD [] :=
  c9_keyrouted_short_command_fallback cmEmpty [strBytes ("127.0.0.1:7000")]
    [strBytes ("GET")] (by decide) (by decide) (by decide)

/-! ## Claim C10 -/

/-- Claim C10.  GetNodeForSlot is total over the integers: any slot outside
0 to 16383 yields the empty address without touching the array, and any
slot inside the range yields exactly the stored owner address (an in-bounds
read of the 16384-entry array). -/
theorem c10_slot_lookup_total (slots : List (List Nat)) (slot : Int) :
    (¬ (0 ≤ slot ∧ slot < 16384) → GetNodeForSlot slots slot = []) ∧
    (∀ (_h1 : 0 ≤ slot) (_h2 : slot < 16384) (_hlen : slots.length = 16384),
      ∃ h : slot.toNat < slots.length,
        GetNodeForSlot slots slot = slots.get ⟨slot.toNat, h⟩) := by
  constructor
  · intro h
    simp [GetNodeForSlot, h]
  · intro h1 h2 hlen
    have hb : slot.toNat < slots.length := by omega
    refine ⟨hb, ?_⟩
    simp only [GetNodeForSlot, if_pos (And.intro h1 h2)]
    exact List.getD_eq_get slots [] hb

/-- Claim C10, witness.  The theorem applied to a full 16384-entry slot
array: slot 20000 is answered with the empty address, slot 5 with the
stored entry. -/
theorem c10_slot_lookup_total_witness :
    GetNodeForSlot (List.replicate 16384 []) 20000 = [] ∧
    ∃ h : (5 : Int).toNat < (List.replicate 16384 ([] : List Nat)).length,
      GetNodeForSlot (List.replicate 16384 []) 5 =
        (List.replicate 16384 ([] : List Nat)).get ⟨(5 : Int).toNat, h⟩ :=
  ⟨(c10_slot_lookup_total (List.replicate 16384 []) 20000).1 (by decide),
   (c10_slot_lookup_total (List.replicate 16384 []) 5).2 (by decide) (by decide)
     (List.length_replicate 16384 [])⟩

end RCProxy
